import Mathlib

/-!
Verification of the Form-Data-Extractor pipeline (src/extractor.py).

Text is modelled as `List Char`.  External collaborators are modelled
explicitly: the PDF text layer (fitz) as a list of per-page read results,
the OpenAI chat endpoint as an oracle function from requests to either a
response text or an exception message, and the Python standard-library
`json.loads` / `json.dumps` as an executable JSON parser / serializer.
All definitions are transcribed from the Python source; prompts keep the
exact source text, including the f-string indentation.
-/

set_option maxRecDepth 4000

abbrev Str := List Char

/-- Left brace character, written by code point to keep braces out of literals. -/
def lbrace : Char := Char.ofNat 123

/-- Right brace character. -/
def rbrace : Char := Char.ofNat 125

/-- Backtick character. -/
def btick : Char := Char.ofNat 96

/-- Boolean prefix test on character lists (spelled out so that its
equations are fully under our control in proofs). -/
def pfx : Str → Str → Bool
  | [], _ => true
  | _ :: _, [] => false
  | a :: as, b :: bs => a == b && pfx as bs

/-- Boolean substring test: does `p` occur contiguously inside the second list? -/
def occurs (p : Str) : Str → Bool
  | [] => p.isEmpty
  | c :: rest => pfx p (c :: rest) || occurs p rest

/-- Whitespace stripped by Python `str.strip()` (ASCII part; the rare
Unicode space classes are not used by any input considered here). -/
def isPyWs (c : Char) : Bool :=
  c == ' ' || c == '\t' || c == '\n' || c == '\r' || c == Char.ofNat 11 || c == Char.ofNat 12

/-- Python `str.strip()`: drop whitespace from both ends. -/
def pstrip (s : Str) : Str :=
  (((s.reverse).dropWhile isPyWs).reverse).dropWhile isPyWs

/-- The literal part of the recovery pattern before the capture group:
the regex is `` ```json\n({.*?})\n``` `` with `re.DOTALL`. -/
def fenceHdr : Str := "```json\n".data

/-- Mandatory opening of the pattern: the fence header immediately followed
by the opening brace of the capture group `({.*?})`. -/
def fenceStart : Str := fenceHdr ++ [lbrace]

/-- The literal tail the lazy group must be followed by: `}\n``` ` minus the
closing brace (which ends the capture group). -/
def closeFence : Str := "\n```".data

/-- Scan for the earliest closing brace that is followed by `\n``` `.
This is exactly what the lazy `.*?` in `({.*?})\n``` ` commits to: the
shortest body such that the next characters are `}` then `\n``` `.
Returns the body strictly between the braces. -/
def findClose : Str → Option Str
  | [] => none
  | c :: rest =>
    if c = rbrace ∧ pfx closeFence rest = true then some []
    else (findClose rest).map (fun body => c :: body)

/-- Search of the pattern `` ```json\n({.*?})\n``` `` with `re.DOTALL`: try each start
position left to right; at a position where the literal opening matches,
commit to the earliest close (lazy group); if no close exists, the regex
engine advances one position, as does this function.  Returns `group(1)`
(braces included). -/
def reSearchFence : Str → Option Str
  | [] => none
  | c :: rest =>
    if pfx fenceStart (c :: rest) = true then
      match findClose ((c :: rest).drop fenceStart.length) with
      | some body => some (lbrace :: (body ++ [rbrace]))
      | none => reSearchFence rest
    else reSearchFence rest

/-- JSON values as produced by `json.loads`.  Numbers keep their source
lexeme (no claim inspects numeric values, and keeping the lexeme keeps
the parser exact on accept/reject behaviour). -/
inductive Json where
  | null : Json
  | bool (b : Bool) : Json
  | num (lexeme : Str) : Json
  | str (s : Str) : Json
  | arr (items : List Json) : Json
  | obj (members : List (Str × Json)) : Json

/-- Decimal/hex digit predicate used by the number and escape parsers. -/
def digitc (c : Char) : Bool := decide (48 ≤ c.toNat ∧ c.toNat ≤ 57)

/-- Value of one hexadecimal digit. -/
def hexVal (c : Char) : Option Nat :=
  if 48 ≤ c.toNat ∧ c.toNat ≤ 57 then some (c.toNat - 48)
  else if 97 ≤ c.toNat ∧ c.toNat ≤ 102 then some (c.toNat - 87)
  else if 65 ≤ c.toNat ∧ c.toNat ≤ 70 then some (c.toNat - 55)
  else none

/-- Single-character JSON string escapes (`\u` is handled separately). -/
def escMap (e : Char) : Option Char :=
  if e = '"' then some '"'
  else if e = '\\' then some '\\'
  else if e = '/' then some '/'
  else if e = 'b' then some (Char.ofNat 8)
  else if e = 'f' then some (Char.ofNat 12)
  else if e = 'n' then some '\n'
  else if e = 'r' then some '\r'
  else if e = 't' then some '\t'
  else none

/-- Body of a JSON string after the opening quote, per the strict decoder:
raw control characters are rejected, unknown escapes are rejected.
(`\u` surrogate pairs are not recombined; no claim depends on them.) -/
def parseStringBody : Nat → Str → Option (Str × Str)
  | 0, _ => none
  | _, [] => none
  | f + 1, c :: r =>
    if c = '"' then some ([], r)
    else if c = '\\' then
      match r with
      | [] => none
      | e :: r2 =>
        if e = 'u' then
          match r2 with
          | h1 :: h2 :: h3 :: h4 :: r3 =>
            match hexVal h1, hexVal h2, hexVal h3, hexVal h4 with
            | some a, some b, some c2, some d =>
              match parseStringBody f r3 with
              | some (cs, r4) => some (Char.ofNat (4096 * a + 256 * b + 16 * c2 + d) :: cs, r4)
              | none => none
            | _, _, _, _ => none
          | _ => none
        else
          match escMap e with
          | some ch =>
            match parseStringBody f r2 with
            | some (cs, r3) => some (ch :: cs, r3)
            | none => none
          | none => none
    else if c.toNat < 32 then none
    else
      match parseStringBody f r with
      | some (cs, r2) => some (c :: cs, r2)
      | none => none

/-- Characters a number lexeme may be built from. -/
def numChar (c : Char) : Bool :=
  digitc c || c == '-' || c == '+' || c == '.' || c == 'e' || c == 'E'

/-- Integer part of the JSON number grammar: `0 | [1-9][0-9]*`. -/
def numInt : Str → Option Str
  | [] => none
  | c :: r =>
    if c = '0' then some r
    else if digitc c then some (r.dropWhile digitc)
    else none

/-- Optional fraction part `(. [0-9]+)?`. -/
def numFrac : Str → Option Str
  | [] => some []
  | c :: r =>
    if c = '.' then
      if (r.takeWhile digitc).isEmpty then none else some (r.dropWhile digitc)
    else some (c :: r)

/-- Optional exponent part `([eE][+-]?[0-9]+)?`. -/
def numExp : Str → Option Str
  | [] => some []
  | c :: r =>
    if c = 'e' ∨ c = 'E' then
      match r with
      | [] => none
      | s :: r2 =>
        let r3 := if s = '+' ∨ s = '-' then r2 else s :: r2
        if (r3.takeWhile digitc).isEmpty then none else some (r3.dropWhile digitc)
    else some (c :: r)

/-- Full JSON number grammar check for a candidate lexeme. -/
def validNum (l : Str) : Bool :=
  let l1 := match l with
    | [] => []
    | c :: r => if c = '-' then r else c :: r
  match numInt l1 with
  | none => false
  | some r1 =>
    match numFrac r1 with
    | none => false
    | some r2 =>
      match numExp r2 with
      | none => false
      | some r3 => r3.isEmpty

/-- JSON insignificant whitespace (exactly the four characters the
Python decoder skips). -/
def jsonWs (c : Char) : Bool := c == ' ' || c == '\t' || c == '\n' || c == '\r'

/-- Skip insignificant whitespace. -/
def skipWs (s : Str) : Str := s.dropWhile jsonWs

mutual

/-- Parse one JSON value; returns the value and the remaining input.
Fuel only bounds recursion depth; `json_loads` supplies enough for any
input, so fuel exhaustion never changes accept behaviour. -/
def parseVal : Nat → Str → Option (Json × Str)
  | 0, _ => none
  | f + 1, s =>
    match skipWs s with
    | [] => none
    | c :: r =>
      if c = lbrace then parseObjBody f (skipWs r)
      else if c = '[' then parseArrBody f (skipWs r)
      else if c = '"' then
        match parseStringBody (r.length + 1) r with
        | some (cs, r2) => some (.str cs, r2)
        | none => none
      else if c = 'n' then
        match r with
        | 'u' :: 'l' :: 'l' :: r2 => some (.null, r2)
        | _ => none
      else if c = 't' then
        match r with
        | 'r' :: 'u' :: 'e' :: r2 => some (.bool true, r2)
        | _ => none
      else if c = 'f' then
        match r with
        | 'a' :: 'l' :: 's' :: 'e' :: r2 => some (.bool false, r2)
        | _ => none
      else if digitc c || c == '-' then
        let span := (c :: r).takeWhile numChar
        if validNum span then some (.num span, (c :: r).drop span.length) else none
      else none

/-- After `[` and whitespace: either `]` (empty array) or the items. -/
def parseArrBody : Nat → Str → Option (Json × Str)
  | 0, _ => none
  | f + 1, s =>
    match s with
    | [] => none
    | c :: r =>
      if c = ']' then some (.arr [], r)
      else
        match parseVal f (c :: r) with
        | some (v, r2) =>
          match parseArrTail f r2 with
          | some (vs, r3) => some (.arr (v :: vs), r3)
          | none => none
        | none => none

/-- After one array item: `,` item ... or the closing `]`. -/
def parseArrTail : Nat → Str → Option (List Json × Str)
  | 0, _ => none
  | f + 1, s =>
    match skipWs s with
    | [] => none
    | c :: r =>
      if c = ']' then some ([], r)
      else if c = ',' then
        match parseVal f r with
        | some (v, r2) =>
          match parseArrTail f r2 with
          | some (vs, r3) => some (v :: vs, r3)
          | none => none
        | none => none
      else none

/-- One `"key": value` pair (leading whitespace already consumed). -/
def parseMember : Nat → Str → Option ((Str × Json) × Str)
  | 0, _ => none
  | f + 1, s =>
    match s with
    | [] => none
    | c :: r =>
      if c = '"' then
        match parseStringBody (r.length + 1) r with
        | some (k, r2) =>
          match skipWs r2 with
          | ':' :: r3 =>
            match parseVal f r3 with
            | some (v, r4) => some ((k, v), r4)
            | none => none
          | _ => none
        | none => none
      else none

/-- After one member: `,` member ... or the closing brace. -/
def parseObjTail : Nat → Str → Option (List (Str × Json) × Str)
  | 0, _ => none
  | f + 1, s =>
    match skipWs s with
    | [] => none
    | c :: r =>
      if c = rbrace then some ([], r)
      else if c = ',' then
        match parseMember f (skipWs r) with
        | some (kv, r2) =>
          match parseObjTail f r2 with
          | some (kvs, r3) => some (kv :: kvs, r3)
          | none => none
        | none => none
      else none

/-- After the opening brace and whitespace: either the closing brace
(empty object) or the members. -/
def parseObjBody : Nat → Str → Option (Json × Str)
  | 0, _ => none
  | f + 1, s =>
    match s with
    | [] => none
    | c :: r =>
      if c = rbrace then some (.obj [], r)
      else
        match parseMember f (c :: r) with
        | some (kv, r2) =>
          match parseObjTail f r2 with
          | some (kvs, r3) => some (.obj (kv :: kvs), r3)
          | none => none
        | none => none

end

/-- Model of `json.loads`: parse one document, allow trailing whitespace only.
The fuel `2 * length + 8` dominates the call count of the parser (each call
either consumes a character or steps into a subterm past a consumed
bracket), so it is never the reason a parse fails. -/
def json_loads (s : Str) : Option Json :=
  match parseVal (2 * s.length + 8) s with
  | some (v, rest) => if (skipWs rest).isEmpty then some v else none
  | none => none

/-- Lines 69-76 of the source: `response_text = ....strip()`, then
the regex search of `` ```json\n({.*?})\n``` `` over it with `re.DOTALL`; on a
match the candidate is `group(1)`, otherwise the whole stripped text. -/
def json_candidate (response : Str) : Str :=
  let response_text := pstrip response
  match reSearchFence response_text with
  | some g => g
  | none => response_text

/-- The JSON-recovery step applied to a model response text:
candidate selection followed by `json.loads` (line 78). -/
def recover_json (response : Str) : Option Json :=
  json_loads (json_candidate response)

/-- One `client.chat.completions.create` call: model name, the system and
user messages, and the sampling temperature (`none` when the call does not
pass one, as in both summarizers). -/
structure ChatRequest where
  model : Str
  system : Str
  user : Str
  temperature : Option Rat

/-- The language-model service: maps a request to a response text, or to
an exception message when the call raises. -/
abbrev LlmService := ChatRequest → Except Str Str

/-- Concatenation of a list of page texts in order. -/
def concatAll : List Str → Str
  | [] => []
  | t :: ts => t ++ concatAll ts

/-- A fitz document as seen by the script: one entry per page, `some text`
when `page.get_text()` succeeds and `none` when it raises. -/
structure PdfDoc where
  pages : List (Option Str)

/-- Read a span of pages left to right, failing at the first raising page,
exactly like the `text += page.get_text()` loops. -/
def readPages : List (Option Str) → Option Str
  | [] => some []
  | none :: _ => none
  | some t :: rest => (readPages rest).map (fun u => t ++ u)

/-- Embedding of `extract_text_from_pdf` (lines 12-28) with the resource trace: the
first component is the returned value (`none` models the except branch
returning `None`), the second is whether `doc.close()` was executed.
`fitz.open` raising is modelled by `openRes = none`.  The Python guard
`if max_pages:` is falsy for `max_pages = 0`. -/
def extract_text_run (openRes : Option PdfDoc) (max_pages : Option Nat) : Option Str × Bool :=
  match openRes with
  | none => (none, false)
  | some doc =>
    let num_pages := match max_pages with
      | none => doc.pages.length
      | some m => if 0 < m then min doc.pages.length m else doc.pages.length
    match readPages (doc.pages.take num_pages) with
    | some text => (some text, true)
    | none => (none, false)

/-- The value `extract_text_from_pdf` returns. -/
def extract_text_from_pdf (openRes : Option PdfDoc) (max_pages : Option Nat) : Option Str :=
  (extract_text_run openRes max_pages).1

/-- Embedding of `extract_attachment_text` (lines 30-42) with the resource trace: reads
pages `1 .. page_count - 1`, returns `""` both when the loop is skipped and
when anything raises (the except branch), closing only on the non-raising
path. -/
def extract_attachment_run (openRes : Option PdfDoc) : Str × Bool :=
  match openRes with
  | none => ([], false)
  | some doc =>
    if doc.pages.length > 1 then
      match readPages (doc.pages.drop 1) with
      | some text => (text, true)
      | none => ([], false)
    else ([], true)

/-- The value `extract_attachment_text` returns. -/
def extract_attachment_text (openRes : Option PdfDoc) : Str :=
  (extract_attachment_run openRes).1

/-- The structured-extraction prompt (lines 46-58), with the exact
f-string text including its four-space indentation. -/
def extract_prompt (pdf_text : Str) : Str :=
  "\n    You are an expert data extraction AI. Your task is to analyze the following text from a PDF document and extract all relevant key-value pairs.\n    The document is a government form, so pay attention to labels and the corresponding values filled in.\n    Present the extracted data as a clean JSON object. The keys of the JSON should be descriptive, snake_cased labels for the data, and the values should be the extracted information.\n    Clean up the keys to be descriptive and consistent (e.g., use \"company_name\" instead of \"Name of the company\").\n\n    Here is the text from the PDF:\n    ---\n    ".data
    ++ pdf_text
    ++ "\n    ---\n\n    Please return only the JSON object.\n    ".data

/-- The request issued by `extract_structured_data_with_llm` (lines 61-68):
`gpt-4o-mini`, a fixed system message, and `temperature=0.0`. -/
def extract_request (pdf_text : Str) : ChatRequest :=
  { model := "gpt-4o-mini".data
    system := "You are an expert data extraction AI that returns JSON.".data
    user := extract_prompt pdf_text
    temperature := some 0 }

/-- Embedding of `extract_structured_data_with_llm` (lines 44-81): call the model, then
recover JSON from the response; any exception (network failure or
`json.loads` failure) is caught and becomes `None`. -/
def extract_structured_data_with_llm (llm : LlmService) (pdf_text : Str) : Option Json :=
  match llm (extract_request pdf_text) with
  | .error _ => none
  | .ok content => recover_json content

/-- Number of spaces for a given indent depth. -/
def sp (n : Nat) : Str := List.replicate n ' '

/-- Lowercase hexadecimal digit, as used by the Python serializer. -/
def hexDig (n : Nat) : Char :=
  if n < 10 then Char.ofNat (48 + n) else Char.ofNat (87 + n)

/-- Model of `json.dumps` escaping of one string character (`ensure_ascii=True`:
everything outside `0x20 .. 0x7e` becomes an escape; astral code points,
which Python writes as surrogate pairs, do not occur in our inputs). -/
def escChar (c : Char) : Str :=
  if c = '"' then ['\\', '"']
  else if c = '\\' then ['\\', '\\']
  else if c = '\n' then ['\\', 'n']
  else if c = '\t' then ['\\', 't']
  else if c = '\r' then ['\\', 'r']
  else if c = Char.ofNat 8 then ['\\', 'b']
  else if c = Char.ofNat 12 then ['\\', 'f']
  else if c.toNat < 32 ∨ 127 ≤ c.toNat then
    ['\\', 'u', hexDig (c.toNat / 4096 % 16), hexDig (c.toNat / 256 % 16),
      hexDig (c.toNat / 16 % 16), hexDig (c.toNat % 16)]
  else [c]

/-- Escape a whole string body. -/
def escStr : Str → Str
  | [] => []
  | c :: r => escChar c ++ escStr r

mutual

/-- Model of `json.dumps(v, indent=ind)` at nesting level `lvl`: containers open
with a newline, indent each entry by `ind * (lvl + 1)`, separate entries
with `,\n`, and close on a fresh line at `ind * lvl`; empty containers
print without newlines.  Numbers print their lexeme. -/
def dumpVal (ind lvl : Nat) : Json → Str
  | .null => "null".data
  | .bool b => if b then "true".data else "false".data
  | .num l => l
  | .str s => '"' :: (escStr s ++ ['"'])
  | .arr [] => "[]".data
  | .arr (x :: xs) =>
    '[' :: '\n' :: (sp (ind * (lvl + 1)) ++ dumpVal ind (lvl + 1) x
      ++ dumpItems ind (lvl + 1) xs ++ '\n' :: (sp (ind * lvl) ++ [']']))
  | .obj [] => lbrace :: [rbrace]
  | .obj (kv :: kvs) =>
    lbrace :: '\n' :: (sp (ind * (lvl + 1)) ++ dumpMember ind (lvl + 1) kv
      ++ dumpMembers ind (lvl + 1) kvs ++ '\n' :: (sp (ind * lvl) ++ [rbrace]))

/-- One `"key": value` member. -/
def dumpMember (ind lvl : Nat) : Str × Json → Str
  | (k, v) => '"' :: (escStr k ++ "\": ".data ++ dumpVal ind lvl v)

/-- Remaining array items, each preceded by `,\n` and indentation. -/
def dumpItems (ind lvl : Nat) : List Json → Str
  | [] => []
  | x :: xs => ',' :: '\n' :: (sp (ind * lvl) ++ dumpVal ind lvl x) ++ dumpItems ind lvl xs

/-- Remaining object members, each preceded by `,\n` and indentation. -/
def dumpMembers (ind lvl : Nat) : List (Str × Json) → Str
  | [] => []
  | kv :: kvs => ',' :: '\n' :: (sp (ind * lvl) ++ dumpMember ind lvl kv) ++ dumpMembers ind lvl kvs

end

/-- Model of `json.dumps(v, indent=ind)` at top level. -/
def dumps (ind : Nat) (v : Json) : Str := dumpVal ind 0 v

/-- Head of the report-summary prompt (lines 85-88), up to and including
the newline after `Data:`; the serialized record follows it directly. -/
def sumHead : Str :=
  "Based on the following data from a company\x27s auditor appointment form (ADT-1),\ngenerate a 3-5 line summary for a non-technical person.\nData:\n".data

/-- Text between the base of the report prompt and a truthy attachment summary
(first half of the block appended at lines 90-98). -/
def aHead : Str :=
  "\n\nAlso, consider the following summary from the attachments:\n---\n".data

/-- Text after the attachment summary in the appended block. -/
def aTail : Str :=
  "\n---\nIncorporate any important details from the attachments, such as board resolutions or consent letters, into the main summary.\n".data

/-- The block appended to the prompt when an attachment summary is truthy
(lines 90-98). -/
def attachSection (s : Str) : Str := aHead ++ s ++ aTail

/-- The full report-summarizer prompt: the base plus, only when the
attachment summary is supplied and non-empty (Python truthiness of
`if attachment_summary:`), the attachment block. -/
def summary_prompt (json_data : Json) : Option Str → Str
  | none => sumHead ++ dumps 2 json_data
  | some s =>
    if s = [] then sumHead ++ dumps 2 json_data
    else sumHead ++ dumps 2 json_data ++ attachSection s

/-- The request issued by `generate_summary` (lines 101-107): no
temperature is passed. -/
def summary_request (json_data : Json) (attachment_summary : Option Str) : ChatRequest :=
  { model := "gpt-4o-mini".data
    system := "You are a helpful assistant that summarizes corporate filings.".data
    user := summary_prompt json_data attachment_summary
    temperature := none }

/-- Embedding of `generate_summary` (lines 83-110): returns the stripped response, or
on any exception the string `"Error generating summary: "` followed by the
exception text. -/
def generate_summary (llm : LlmService) (json_data : Json) (attachment_summary : Option Str) : Str :=
  match llm (summary_request json_data attachment_summary) with
  | .ok r => pstrip r
  | .error e => "Error generating summary: ".data ++ e

/-- The attachment-summarizer prompt (lines 114-125), with the exact
f-string text including its four-space indentation. -/
def attach_prompt (attachment_text : Str) : Str :=
  "\n    You are an AI assistant. Please summarize the following text extracted from the attachments of a corporate filing.\n    The attachments likely include board resolutions, consent letters from auditors, etc.\n    Focus on key information like dates, names, and the nature of the resolutions or consents.\n\n    Attachment Text:\n    ---\n    ".data
    ++ attachment_text
    ++ "\n    ---\n\n    Provide a concise summary.\n    ".data

/-- The request issued by `summarize_attachments` (lines 127-133). -/
def attach_request (attachment_text : Str) : ChatRequest :=
  { model := "gpt-4o-mini".data
    system := "You are an AI assistant that summarizes legal and corporate documents.".data
    user := attach_prompt attachment_text
    temperature := none }

/-- Embedding of `summarize_attachments` (lines 112-136): returns the stripped
response, or on any exception the string
`"Error generating attachment summary: "` followed by the exception text. -/
def summarize_attachments (llm : LlmService) (attachment_text : Str) : Str :=
  match llm (attach_request attachment_text) with
  | .ok r => pstrip r
  | .error e => "Error generating attachment summary: ".data ++ e

/-- Python truthiness of a parsed JSON value (`if not structured_data:`):
empty containers, empty strings, zero, `False` and `None` are falsy.
A number is truthy exactly when its mantissa has a nonzero digit. -/
def jsonTruthy : Json → Bool
  | .null => false
  | .bool b => b
  | .num l => (l.takeWhile (fun c => !(c == 'e' || c == 'E'))).any
      (fun c => decide (49 ≤ c.toNat ∧ c.toNat ≤ 57))
  | .str s => !s.isEmpty
  | .arr xs => !xs.isEmpty
  | .obj kvs => !kvs.isEmpty

/-- Top-level key list of a structured record. -/
def jsonKeys : Json → List Str
  | .obj kvs => kvs.map Prod.fst
  | _ => []

/-- The world `main` runs against: the result of `fitz.open` on the fixed
input path (used by both PDF reads) and the model service. -/
structure Env where
  openResult : Option PdfDoc
  llm : LlmService

/-- Embedding of `main` (lines 138-184) as the list of files it writes, in order.
`if not form_text:` and `if not structured_data:` are Python truthiness
tests, so an empty text or a falsy parsed value also aborts before any
write; `if attachment_text:` gates the attachment summary artifact. -/
def main_run (env : Env) : List (Str × Str) :=
  match extract_text_from_pdf env.openResult none with
  | none => []
  | some form_text =>
    if form_text.isEmpty then []
    else
      match extract_structured_data_with_llm env.llm form_text with
      | none => []
      | some structured_data =>
        if !jsonTruthy structured_data then []
        else
          let first := [("output.json".data, dumps 4 structured_data)]
          let attachment_text := extract_attachment_text env.openResult
          if attachment_text.isEmpty then
            first ++ [("summary.txt".data, generate_summary env.llm structured_data none)]
          else
            let attachment_summary := summarize_attachments env.llm attachment_text
            first
              ++ [("attachment_summary.txt".data, attachment_summary)]
              ++ [("summary.txt".data,
                    generate_summary env.llm structured_data (some attachment_summary))]

/-- The specific fenced block named by the testable property of the spec:
`` ```json\n{"a": "b"}\n``` ``. -/
def blockAB : Str := "```json\n\x7b\"a\": \"b\"\x7d\n```".data

/-- The capture group the regex yields on that block. -/
def groupAB : Str := "\x7b\"a\": \"b\"\x7d".data

/-- A model response containing the fenced block of the spec embedded in prose,
where the prose itself contains an earlier fenced JSON block. -/
def cexC1 : Str :=
  "```json\n\x7b\"x\": \"y\"\x7d\n``` and also ```json\n\x7b\"a\": \"b\"\x7d\n```".data

/-! Helper lemmas about the string machinery. -/

/-- A list is a prefix of itself followed by anything. -/
theorem pfx_self_append (p z : Str) : pfx p (p ++ z) = true := by
  induction p with
  | nil => rfl
  | cons a as ih => simp [pfx, ih]

/-- Prefix tests only inspect the first `p.length` characters. -/
theorem pfx_append_of_le (p X Y : Str) (h : p.length ≤ X.length) :
    pfx p (X ++ Y) = pfx p X := by
  induction p generalizing X with
  | nil => cases X <;> rfl
  | cons a as ih =>
    cases X with
    | nil => simp at h
    | cons x xs =>
      simp only [List.cons_append, pfx, List.append_eq]
      rw [ih xs (by simpa using h)]

/-- The empty pattern occurs everywhere. -/
theorem occurs_nil_left (l : Str) : occurs [] l = true := by
  cases l <;> simp [occurs, pfx, List.isEmpty]

/-- If a pattern does not occur in `X ++ Y` it does not occur in `Y`. -/
theorem occurs_append_drop (p X Y : Str) (h : occurs p (X ++ Y) = false) :
    occurs p Y = false := by
  induction X with
  | nil => exact h
  | cons x xs ih =>
    rw [List.cons_append, occurs, Bool.or_eq_false_iff] at h
    exact ih h.2

/-- A pattern occurs in any string that contains it contiguously. -/
theorem occurs_middle (p X Y : Str) : occurs p (X ++ p ++ Y) = true := by
  induction X with
  | nil =>
    cases p with
    | nil => simp [occurs_nil_left]
    | cons a as =>
      rw [List.nil_append, List.cons_append, occurs, Bool.or_eq_true]
      exact Or.inl (pfx_self_append (a :: as) Y)
  | cons x xs ih =>
    simp only [List.cons_append, occurs, List.append_assoc] at ih ⊢
    simp [ih]

/-- A prefix match that crosses a separator character the pattern does not
contain must already end at the separator. -/
theorem pfx_through_sep (p X Y : Str) (c : Char) (hc : c ∉ p)
    (h : pfx p (X ++ c :: Y) = true) : pfx p (X ++ [c]) = true := by
  induction X generalizing p with
  | nil =>
    cases p with
    | nil => rfl
    | cons a as =>
      simp only [List.nil_append, pfx, Bool.and_eq_true, beq_iff_eq] at h
      exact absurd (h.1 ▸ List.mem_cons_self a as) hc
  | cons x xs ih =>
    cases p with
    | nil => rfl
    | cons a as =>
      simp only [List.cons_append, pfx, Bool.and_eq_true] at h ⊢
      exact ⟨h.1, ih as (fun hm => hc (List.mem_cons_of_mem a hm)) h.2⟩

/-- Occurrences cannot cross a separator character the pattern does not
contain: if `p` occurs neither in `X ++ [c]` nor in `Y`, it does not occur
in `X ++ c :: Y`. -/
theorem occurs_append_sep (p X Y : Str) (c : Char) (hc : c ∉ p)
    (hX : occurs p (X ++ [c]) = false) (hY : occurs p Y = false) :
    occurs p (X ++ c :: Y) = false := by
  induction X with
  | nil =>
    cases p with
    | nil => rw [occurs_nil_left] at hX; exact absurd hX (by simp)
    | cons a as =>
      have hac : (a == c) = false := by
        rw [beq_eq_false_iff_ne]
        intro h
        exact hc (h ▸ List.mem_cons_self a as)
      simp [occurs, pfx, hac, hY]
  | cons x xs ih =>
    rw [List.cons_append, occurs, Bool.or_eq_false_iff]
    rw [List.cons_append, occurs, Bool.or_eq_false_iff] at hX
    refine ⟨?_, ih hX.2⟩
    cases hp : pfx p ((x :: xs) ++ c :: Y) with
    | false => simpa using hp
    | true =>
      have := pfx_through_sep p (x :: xs) Y c hc (by simpa using hp)
      rw [List.cons_append] at this
      rw [this] at hX
      exact absurd hX.1 (by simp)

/-- Step equation for `findClose` at a non-closing character. -/
theorem findClose_cons_ne (c : Char) (l : Str) (h : c ≠ rbrace) :
    findClose (c :: l) = (findClose l).map (fun body => c :: body) := by
  simp only [findClose]
  rw [if_neg (fun h2 => h h2.1)]

/-- Step equation for `findClose` at the closing brace of the fence. -/
theorem findClose_close (l : Str) (h : pfx closeFence l = true) :
    findClose (rbrace :: l) = some [] := by
  simp [findClose, h]

/-- Dropping whitespace stops no later than a non-matching separator. -/
theorem dw_append (X Z : Str) (c : Char) (h : isPyWs c = false) :
    (X ++ c :: Z).dropWhile isPyWs = X.dropWhile isPyWs ++ c :: Z := by
  induction X with
  | nil => simp [List.dropWhile_cons, h]
  | cons x xs ih =>
    cases hx : isPyWs x <;>
      simp [List.cons_append, List.dropWhile_cons, hx, ih]

/-- Reading a list of readable pages concatenates their texts. -/
theorem readPages_map (l : List Str) : readPages (l.map some) = some (concatAll l) := by
  induction l with
  | nil => rfl
  | cons t ts ih => simp [readPages, concatAll, ih]

/-- Claim C2: whenever the recovered JSON candidate of a model response is
malformed (fails to parse) — in particular for truncated JSON and for
prose containing no JSON — structured extraction returns the failure
value, never a partial or guessed record. -/
theorem C2_malformed_yields_failure :
    (∀ (llm : LlmService) (t r : Str),
        llm (extract_request t) = .ok r →
        json_loads (json_candidate r) = none →
        extract_structured_data_with_llm llm t = none) ∧
    recover_json "\x7b\"company\": \"Acm".data = none ∧
    recover_json "I could not find any data in this text.".data = none := by
  refine ⟨?_, rfl, rfl⟩
  intro llm t r h1 h2
  simp only [extract_structured_data_with_llm, h1, recover_json]
  exact h2

/-- Witness for C2 at a concrete truncated-JSON model response. -/
theorem C2_malformed_yields_failure_witness :
    ((fun _ => Except.ok "\x7b\"company\": \"Acm".data) : LlmService)
        (extract_request "form text".data) = Except.ok "\x7b\"company\": \"Acm".data ∧
    json_loads (json_candidate "\x7b\"company\": \"Acm".data) = none ∧
    extract_structured_data_with_llm (fun _ => Except.ok "\x7b\"company\": \"Acm".data)
        "form text".data = none :=
  ⟨rfl, rfl, C2_malformed_yields_failure.1 _ _ _ rfl rfl⟩

/-- Claim C3: on a readable PDF (every page read succeeds) with at least
two pages, attachment extraction returns exactly the concatenation of
pages `2 .. N` in order; on a readable single-page PDF it returns the
empty string without failing. -/
theorem C3_attachment_concat (texts : List Str) :
    (2 ≤ texts.length →
        extract_attachment_text (some ⟨texts.map some⟩) = concatAll (texts.drop 1)) ∧
    (texts.length = 1 →
        extract_attachment_text (some ⟨texts.map some⟩) = []) := by
  constructor
  · intro h
    cases texts with
    | nil => simp at h
    | cons t rest =>
      have hpos : 0 < rest.length := by
        simp only [List.length_cons] at h
        omega
      simp [extract_attachment_text, extract_attachment_run, readPages_map, hpos]
  · intro h
    cases texts with
    | nil => simp at h
    | cons t rest =>
      have hrest : rest = [] := by
        simp only [List.length_cons] at h
        exact List.length_eq_zero.mp (by omega)
      subst hrest
      simp [extract_attachment_text, extract_attachment_run]

/-- Witness for C3 on a concrete two-page readable document. -/
theorem C3_attachment_concat_witness :
    2 ≤ ["One".data, "Two".data].length ∧
    extract_attachment_text (some ⟨["One".data, "Two".data].map some⟩) =
      concatAll (["One".data, "Two".data].drop 1) :=
  ⟨by decide, (C3_attachment_concat _).1 (by decide)⟩

/-- Claim C4: both summarizers always return a string; whenever the model
call raises, each returns its descriptive error string (the fixed message
followed by the exception text) instead of propagating the exception, and
on success each returns the stripped response. -/
theorem C4_summarizers_return_strings :
    ∀ (llm : LlmService) (jd : Json) (asum : Option Str) (t e r : Str),
      (llm (summary_request jd asum) = .error e →
        generate_summary llm jd asum = "Error generating summary: ".data ++ e) ∧
      (llm (summary_request jd asum) = .ok r →
        generate_summary llm jd asum = pstrip r) ∧
      (llm (attach_request t) = .error e →
        summarize_attachments llm t = "Error generating attachment summary: ".data ++ e) ∧
      (llm (attach_request t) = .ok r →
        summarize_attachments llm t = pstrip r) := by
  intro llm jd asum t e r
  refine ⟨?_, ?_, ?_, ?_⟩ <;> intro h <;>
    simp [generate_summary, summarize_attachments, h]

/-- Witness for C4 with a service whose call always raises. -/
theorem C4_summarizers_return_strings_witness :
    ((fun _ => Except.error "boom".data) : LlmService)
        (summary_request Json.null none) = Except.error "boom".data ∧
    generate_summary (fun _ => Except.error "boom".data) Json.null none =
      "Error generating summary: ".data ++ "boom".data ∧
    summarize_attachments (fun _ => Except.error "boom".data) "att".data =
      "Error generating attachment summary: ".data ++ "boom".data :=
  ⟨rfl,
    (C4_summarizers_return_strings _ Json.null none "att".data "boom".data []).1 rfl,
    (C4_summarizers_return_strings _ Json.null none "att".data "boom".data []).2.2.1 rfl⟩

/-- Claim C5 (divergence witness): when a page read raises after the
document was opened, neither extraction function reaches `doc.close()`
(second component `false`), while on fully successful reads it does.
The source has no `finally`/context manager, so release is not guaranteed
on failure, contrary to the release contract of the spec. -/
theorem C5_close_skipped_on_exception :
    extract_text_run (some ⟨[none]⟩) none = (none, false) ∧
    extract_attachment_run (some ⟨[some "a".data, none]⟩) = ([], false) ∧
    extract_text_run (some ⟨[some "t".data]⟩) none = (some "t".data, true) ∧
    extract_attachment_run (some ⟨[some "a".data, some "b".data]⟩) = ("b".data, true) :=
  ⟨rfl, rfl, rfl, rfl⟩

/-- Claim C6: a source that cannot be opened makes whole-document
extraction return the failure value, and `main` then writes no artifacts
for the document. -/
theorem C6_unreadable_skipped (env : Env) (h : env.openResult = none) :
    extract_text_from_pdf env.openResult none = none ∧ main_run env = [] := by
  rw [h]
  exact ⟨rfl, by simp [main_run, extract_text_from_pdf, extract_text_run, h]⟩

/-- Witness for C6 at a concrete environment whose open fails. -/
theorem C6_unreadable_skipped_witness :
    (Env.mk none (fun _ => Except.error [])).openResult = none ∧
    extract_text_from_pdf (Env.mk none (fun _ => Except.error [])).openResult none = none ∧
    main_run (Env.mk none (fun _ => Except.error [])) = [] :=
  ⟨rfl, (C6_unreadable_skipped _ rfl).1, (C6_unreadable_skipped _ rfl).2⟩

/-- Claim C8: the structured extractor always requests temperature 0, and
with the model call modelled as a deterministic function, two runs on the
same text yield the same result, hence records with the same key set. -/
theorem C8_temperature_zero_deterministic :
    (∀ t : Str, (extract_request t).temperature = some 0) ∧
    (∀ (llm : LlmService) (t : Str) (r1 r2 : Option Json),
        r1 = extract_structured_data_with_llm llm t →
        r2 = extract_structured_data_with_llm llm t →
        r1 = r2 ∧ r1.map jsonKeys = r2.map jsonKeys) := by
  refine ⟨fun _ => rfl, ?_⟩
  intro llm t r1 r2 h1 h2
  subst h1; subst h2
  exact ⟨rfl, rfl⟩

/-- Witness for C8: two runs against the same concrete service agree. -/
theorem C8_temperature_zero_deterministic_witness :
    extract_structured_data_with_llm (fun _ => Except.ok "\x7b\x7d".data) "t".data =
      extract_structured_data_with_llm (fun _ => Except.ok "\x7b\x7d".data) "t".data ∧
    (extract_structured_data_with_llm (fun _ => Except.ok "\x7b\x7d".data) "t".data).map jsonKeys =
      (extract_structured_data_with_llm (fun _ => Except.ok "\x7b\x7d".data) "t".data).map jsonKeys :=
  C8_temperature_zero_deterministic.2 _ _ _ _ rfl rfl

/-- Claim C9: attachment extraction returns the empty string for an
unopenable document, for a readable single-page document, and for a
document whose page reads raise — so the caller cannot tell an unreadable
document from a readable one without attachment pages. -/
theorem C9_empty_indistinguishable (t : Str) :
    extract_attachment_text none = [] ∧
    extract_attachment_text (some ⟨[some t]⟩) = [] ∧
    extract_attachment_text (some ⟨[none, none]⟩) = [] ∧
    extract_attachment_text none = extract_attachment_text (some ⟨[some t]⟩) :=
  ⟨rfl, rfl, rfl, rfl⟩

/-- Claim C10: the response `"{}"` parses successfully to the empty
object, yet the truthiness guard of the orchestrator treats it as a failure:
`main` writes no artifacts, exactly as for a parse failure. -/
theorem C10_empty_object_skipped :
    recover_json "\x7b\x7d".data = some (Json.obj []) ∧
    jsonTruthy (Json.obj []) = false ∧
    main_run ⟨some ⟨[some "hello".data]⟩, fun _ => Except.ok "\x7b\x7d".data⟩ = [] :=
  ⟨rfl, rfl, rfl⟩

/-- Claim C7 (amended): for records whose serialization does not itself
mention attachments, the report prompt built without an attachment summary
contains no occurrence of "attachment"; with a supplied summary the prompt
contains the serialized record and the summary, and — when the summary is
truthy — an explicit reference to the attachments. -/
theorem C7_prompt_references (jd : Json) (s : Str) :
    (occurs "attachment".data (dumps 2 jd) = false →
        occurs "attachment".data (summary_prompt jd none) = false) ∧
    occurs (dumps 2 jd) (summary_prompt jd (some s)) = true ∧
    occurs s (summary_prompt jd (some s)) = true ∧
    (s ≠ [] → occurs "attachments".data (summary_prompt jd (some s)) = true) := by
  have hs : sumHead =
      "Based on the following data from a company\x27s auditor appointment form (ADT-1),\ngenerate a 3-5 line summary for a non-technical person.\nData:".data
        ++ ['\n'] := by decide
  refine ⟨?_, ?_, ?_, ?_⟩
  · intro h
    show occurs "attachment".data (sumHead ++ dumps 2 jd) = false
    rw [hs, List.append_assoc, List.singleton_append]
    refine occurs_append_sep _ _ _ '\n' (by decide) ?_ h
    decide
  · by_cases h0 : s = []
    · subst h0
      show occurs (dumps 2 jd) (sumHead ++ dumps 2 jd) = true
      have := occurs_middle (dumps 2 jd) sumHead []
      rwa [List.append_nil] at this
    · show occurs (dumps 2 jd) (summary_prompt jd (some s)) = true
      rw [summary_prompt, if_neg h0]
      exact occurs_middle (dumps 2 jd) sumHead (attachSection s)
  · by_cases h0 : s = []
    · subst h0
      exact occurs_nil_left _
    · rw [summary_prompt, if_neg h0]
      have := occurs_middle s (sumHead ++ dumps 2 jd ++ aHead) aTail
      simp only [attachSection, List.append_assoc] at this ⊢
      exact this
  · intro h0
    rw [summary_prompt, if_neg h0]
    have ha : aHead =
        "\n\nAlso, consider the following summary from the ".data
          ++ "attachments".data ++ ":\n---\n".data := by decide
    have := occurs_middle "attachments".data
      (sumHead ++ dumps 2 jd ++ "\n\nAlso, consider the following summary from the ".data)
      (":\n---\n".data ++ s ++ aTail)
    simp only [attachSection, ha, List.append_assoc] at this ⊢
    exact this

/-- Counterexample for C7 as stated: a structured record that itself lists
attachments (exactly the key `main` reads at line 171) makes the
no-summary prompt mention attachments. -/
theorem C7_counterexample :
    occurs "attachment".data
        (summary_prompt (Json.obj [("attachments".data, Json.arr [Json.str "x.pdf".data])]) none)
      = true := rfl

/-- Witness for C7 at a record without attachment mentions and a concrete
non-empty summary. -/
theorem C7_prompt_references_witness :
    occurs "attachment".data (dumps 2 Json.null) = false ∧
    occurs "attachment".data (summary_prompt Json.null none) = false ∧
    "ok".data ≠ ([] : Str) ∧
    occurs "attachments".data (summary_prompt Json.null (some "ok".data)) = true :=
  ⟨by decide, (C7_prompt_references Json.null "ok".data).1 (by decide),
    by decide, (C7_prompt_references Json.null "ok".data).2.2.2 (by decide)⟩

/-- Step equation of the regex scan at a position where the opening
matches. -/
theorem reSearchFence_pos (c : Char) (rest : Str)
    (h : pfx fenceStart (c :: rest) = true) :
    reSearchFence (c :: rest) =
      match findClose ((c :: rest).drop fenceStart.length) with
      | some body => some (lbrace :: (body ++ [rbrace]))
      | none => reSearchFence rest := by
  simp only [reSearchFence]
  rw [if_pos h]

/-- Step equation of the regex scan at a position where the opening does
not match. -/
theorem reSearchFence_neg (c : Char) (rest : Str)
    (h : pfx fenceStart (c :: rest) = false) :
    reSearchFence (c :: rest) = reSearchFence rest := by
  simp only [reSearchFence]
  rw [if_neg]
  simp [h]

/-- Evaluation of `findClose` on the text that follows the opening brace of the block
from the spec, with arbitrary trailing input: the first close found is the
closing brace of that block. -/
theorem findClose_tailAB (q2 : Str) :
    findClose ("\"a\": \"b\"\x7d\n```".data ++ q2) = some "\"a\": \"b\"".data := by
  have h0 : "\"a\": \"b\"\x7d\n```".data ++ q2 =
      '"' :: 'a' :: '"' :: ':' :: ' ' :: '"' :: 'b' :: '"' ::
        rbrace :: ('\n' :: btick :: btick :: btick :: q2) := rfl
  have hc : findClose (rbrace :: ('\n' :: btick :: btick :: btick :: q2)) = some [] := by
    refine findClose_close _ ?_
    have h1 : ('\n' :: btick :: btick :: btick :: q2) = closeFence ++ q2 := rfl
    rw [h1]
    exact pfx_self_append closeFence q2
  rw [h0, findClose_cons_ne _ _ (by decide), findClose_cons_ne _ _ (by decide),
    findClose_cons_ne _ _ (by decide), findClose_cons_ne _ _ (by decide),
    findClose_cons_ne _ _ (by decide), findClose_cons_ne _ _ (by decide),
    findClose_cons_ne _ _ (by decide), findClose_cons_ne _ _ (by decide), hc]
  rfl

/-- The regex search on any input of the shape
`prose ++ blockAB ++ rest` finds exactly the expected capture group,
provided the fence-opening sequence does not occur in the prose (tracked
through the header so boundary overlaps are covered). -/
theorem reSearch_blockAB (q1 q2 : Str)
    (h : occurs fenceStart (q1 ++ fenceHdr) = false) :
    reSearchFence (q1 ++ blockAB ++ q2) = some groupAB := by
  induction q1 with
  | nil =>
    have hcons : ([] : Str) ++ blockAB ++ q2 =
        btick :: ("``json\n\x7b\"a\": \"b\"\x7d\n```".data ++ q2) := rfl
    rw [hcons]
    have hpfx : pfx fenceStart (btick :: ("``json\n\x7b\"a\": \"b\"\x7d\n```".data ++ q2))
        = true := by
      have h1 : (btick :: ("``json\n\x7b\"a\": \"b\"\x7d\n```".data ++ q2)) =
          fenceStart ++ ("\"a\": \"b\"\x7d\n```".data ++ q2) := rfl
      rw [h1]
      exact pfx_self_append _ _
    rw [reSearchFence_pos _ _ hpfx]
    have hdrop : (btick :: ("``json\n\x7b\"a\": \"b\"\x7d\n```".data ++ q2)).drop
        fenceStart.length = "\"a\": \"b\"\x7d\n```".data ++ q2 := rfl
    rw [hdrop, findClose_tailAB]
    rfl
  | cons c q1' ih =>
    have hh : occurs fenceStart (c :: (q1' ++ fenceHdr)) = false := h
    rw [occurs, Bool.or_eq_false_iff] at hh
    have hcons : (c :: q1') ++ blockAB ++ q2 = c :: (q1' ++ blockAB ++ q2) := by
      simp
    rw [hcons]
    have hpfalse : pfx fenceStart (c :: (q1' ++ blockAB ++ q2)) = false := by
      have hsplit : c :: (q1' ++ blockAB ++ q2) =
          (c :: (q1' ++ fenceHdr)) ++ ("\x7b\"a\": \"b\"\x7d\n```".data ++ q2) := by
        have hb : blockAB = fenceHdr ++ "\x7b\"a\": \"b\"\x7d\n```".data := rfl
        rw [hb]
        simp [List.append_assoc]
      rw [hsplit, pfx_append_of_le]
      · exact hh.1
      · have h9 : fenceStart.length = 9 := rfl
        have h8 : fenceHdr.length = 8 := rfl
        simp [h9, h8]
    rw [reSearchFence_neg _ _ hpfalse]
    exact ih hh.2

/-- Stripping a response of shape `prose ++ blockAB ++ prose` only trims
whitespace off the outer ends: the backticks of the block stop `strip` on both
sides. -/
theorem pstrip_blockAB (p1 p2 : Str) :
    pstrip (p1 ++ blockAB ++ p2) =
      p1.dropWhile isPyWs ++ blockAB ++ (p2.reverse.dropWhile isPyWs).reverse := by
  have h1 : blockAB.reverse = btick :: "``\n\x7d\"b\" :\"a\"\x7b\nnosj```".data := by decide
  have hT : ("``\n\x7d\"b\" :\"a\"\x7b\nnosj```".data).reverse
      = "```json\n\x7b\"a\": \"b\"\x7d\n``".data := by decide
  have hmid : ∀ x : Str,
      "```json\n\x7b\"a\": \"b\"\x7d\n``".data ++ btick :: x
        = btick :: ("``json\n\x7b\"a\": \"b\"\x7d\n```".data ++ x) := fun _ => rfl
  have hbt : btick = '\x60' := rfl
  unfold pstrip
  have hrev : (p1 ++ blockAB ++ p2).reverse
      = p2.reverse ++ btick :: ("``\n\x7d\"b\" :\"a\"\x7b\nnosj```".data ++ p1.reverse) := by
    simp [List.reverse_append, h1, List.append_assoc]
  rw [hrev, dw_append _ _ _ (by decide)]
  have hrev2 : (p2.reverse.dropWhile isPyWs
        ++ btick :: ("``\n\x7d\"b\" :\"a\"\x7b\nnosj```".data ++ p1.reverse)).reverse
      = p1 ++ btick :: ("``json\n\x7b\"a\": \"b\"\x7d\n```".data
          ++ (p2.reverse.dropWhile isPyWs).reverse) := by
    simp [List.reverse_append, List.reverse_cons, List.reverse_reverse,
      List.append_assoc, List.cons_append, List.singleton_append, hT, hbt]
  rw [hrev2, dw_append _ _ _ (by decide)]
  have hb : blockAB ++ (p2.reverse.dropWhile isPyWs).reverse
      = btick :: ("``json\n\x7b\"a\": \"b\"\x7d\n```".data
          ++ (p2.reverse.dropWhile isPyWs).reverse) := rfl
  rw [List.append_assoc, hb]

/-- Claim C1 (amended): recovery first attempts the fenced-block pattern
and otherwise parses the whole stripped response; for the fenced
block embedded in any surrounding prose in which the fence-opening
sequence `` ```json\n{ `` does not occur earlier, and for the bare
object, both paths produce the parsed object with key "a" mapped to "b". -/
theorem C1_recovery :
    (∀ r g, reSearchFence (pstrip r) = some g → json_candidate r = g) ∧
    (∀ r, reSearchFence (pstrip r) = none → json_candidate r = pstrip r) ∧
    (∀ p1 p2 : Str, occurs fenceStart (p1 ++ fenceHdr) = false →
        recover_json (p1 ++ blockAB ++ p2)
          = some (Json.obj [("a".data, Json.str "b".data)])) ∧
    recover_json "  \x7b\"a\": \"b\"\x7d\n".data
      = some (Json.obj [("a".data, Json.str "b".data)]) := by
  refine ⟨?_, ?_, ?_, rfl⟩
  · intro r g hg
    simp [json_candidate, hg]
  · intro r hn
    simp [json_candidate, hn]
  · intro p1 p2 h
    have h1 : occurs fenceStart (p1.dropWhile isPyWs ++ fenceHdr) = false := by
      have hsplit : p1 ++ fenceHdr
          = p1.takeWhile isPyWs ++ (p1.dropWhile isPyWs ++ fenceHdr) := by
        rw [← List.append_assoc, List.takeWhile_append_dropWhile]
      rw [hsplit] at h
      exact occurs_append_drop _ _ _ h
    simp only [recover_json, json_candidate]
    rw [pstrip_blockAB, reSearch_blockAB _ _ h1]
    rfl

/-- Counterexample for C1 as stated: with prose that itself contains an
earlier fenced JSON block, the recovery returns that earlier object, not
the embedded `\x7b"a": "b"\x7d`. -/
theorem C1_counterexample :
    occurs blockAB cexC1 = true ∧
    recover_json cexC1 = some (Json.obj [("x".data, Json.str "y".data)]) ∧
    ∀ v, recover_json cexC1 = some v →
      v ≠ Json.obj [("a".data, Json.str "b".data)] := by
  refine ⟨rfl, rfl, ?_⟩
  intro v hv
  have hxy : recover_json cexC1 = some (Json.obj [("x".data, Json.str "y".data)]) := rfl
  rw [hxy] at hv
  have hv2 := Option.some.inj hv
  rw [← hv2]
  intro hbad
  exact absurd (congrArg jsonKeys hbad) (by decide)

/-- Witness for C1 at concrete surrounding prose. -/
theorem C1_recovery_witness :
    occurs fenceStart ("Sure, here you go:\n".data ++ fenceHdr) = false ∧
    recover_json ("Sure, here you go:\n".data ++ blockAB ++ "\nHope that helps.".data)
      = some (Json.obj [("a".data, Json.str "b".data)]) :=
  ⟨by decide, C1_recovery.2.2.1 _ _ (by decide)⟩
